import Mathlib

/-!
Verification of the automation-services repository (task queue driving
headless-browser automation jobs).

The development shallowly embeds the JavaScript sources:
  - `src/services/taskManager.js` (TaskManager: createTask, getTask, updateTask,
    executeTask, logTask, getPendingTasks, ...),
  - `src/services/browser.js` (BrowserService: extractData, saveUserData,
    loadStoredUserData, ...),
  - `src/services/openai.js` (OpenAIService.processData),
  - `src/db/schema.sql` (NOT NULL constraints of the tasks table).

The relational store is modelled as an explicit `DB` state; the external
capabilities (Playwright browser engine, OpenAI API) are modelled as
environments supplying the outcome of each call, so that the error-handling
structure of the orchestrator can be proved for every possible combination of
step outcomes.
-/

namespace AutoSvc

/-- Status column of the tasks table (values used by the code:
pending, running, completed, failed). -/
inductive TStatus
  | pending
  | running
  | completed
  | failed
deriving DecidableEq

/-- Login credentials blob (task.config.credentials in taskManager.js /
browser.js). Only its presence drives control flow in executeTask. -/
structure Cred where
  url : String := ""
  usernameSelector : String := ""
  passwordSelector : String := ""
  submitSelector : String := ""
  username : String := ""
  password : String := ""
  successSelector : Option String := none
  saveSession : Bool := false
  domain : String := ""

/-- One selector descriptor of extractionConfig.selectors in
BrowserService.extractData: destructured in the source as
name, selector, type, attribute, multiple. -/
structure SelectorItem where
  name : String
  selector : String
  ty : String := "text"
  attr : Option String := none
  multiple : Bool := false

/-- The task.config JSONB blob, with the fields read by executeTask. -/
structure TaskConfig where
  userDataKey : Option String := none
  credentials : Option Cred := none
  selectors : List SelectorItem := []
  processWithAI : Bool := false
  aiTask : Option String := none
  outputFormat : Option String := none
  outputSchema : Option String := none
  takeScreenshot : Bool := false
  fullPageScreenshot : Bool := false

/-- A row of the tasks table (schema.sql). Timestamps are integers,
ids are naturals standing for the UUIDs. -/
structure Task where
  id : Nat
  name : String
  description : Option String := none
  url : String := ""
  status : TStatus
  error : Option String := none
  createdAt : Int := 0
  updatedAt : Int := 0
  scheduledFor : Option Int := none
  completedAt : Option Int := none
  config : TaskConfig := {}
  userId : Option Nat := none

/-- A row of the task_results table. Raw and normalized data are kept as the
opaque stringified payloads the code inserts. -/
structure ResultRow where
  id : Nat
  taskId : Nat
  rawData : Option String
  normalizedData : Option String
  processingTime : Int
  status : TStatus
  error : Option String

/-- A row of the task_logs table (metadata payload elided; level and message
are kept verbatim). -/
structure LogRow where
  taskId : Nat
  level : String
  message : String

/-- The contents of one user_data row: cookie set and localStorage mapping,
each a key/value association list (BrowserService.saveUserData serializes
them together as one JSON document). -/
structure UserData where
  cookies : List (String × String)
  localStorage : List (String × String)

/-- The relational store: tasks, task_results, task_logs and user_data tables,
plus the id generators. -/
structure DB where
  tasks : List Task := []
  results : List ResultRow := []
  logs : List LogRow := []
  userData : List (String × UserData) := []
  nextTaskId : Nat := 1
  nextResultId : Nat := 1

/-- Errors surfaced by the embedded operations. `notFound` carries the exact
message the code throws; `notNull` is the not-null constraint violation coming
from the database (schema.sql); `validation` is the explicit validation error
the spec speaks about (never constructed by the code); `stepErr` carries the
message of an error thrown by a browser or normalization step. -/
inductive SvcErr
  | notFound (msg : String)
  | notNull (column : String)
  | validation (msg : String)
  | stepErr (msg : String)
deriving DecidableEq

/-- Whether an error is the validation error of the spec taxonomy. -/
def isValidationErr {α : Type} : Except SvcErr α → Bool
  | Except.error (SvcErr.validation _) => true
  | _ => false

/-- The message of the NotFound error thrown by getTask and updateTask:
`Task with ID ${taskId} not found`. -/
def notFoundMsg (taskId : Nat) : String :=
  "Task with ID " ++ toString taskId ++ " not found"

/-- `SELECT * FROM tasks WHERE id = $1` (first row). -/
def findTask (db : DB) (taskId : Nat) : Option Task :=
  db.tasks.find? (fun t => t.id == taskId)

/-- TaskManager.logTask: inserts a task_logs row; its own failure (for example
the foreign-key violation when the task id does not exist) is caught and
swallowed, so the operation never throws and at worst leaves the store
unchanged. -/
def logTask (db : DB) (taskId : Nat) (level msg : String) : DB :=
  if (findTask db taskId).isSome then
    { db with logs := db.logs ++ [⟨taskId, level, msg⟩] }
  else
    db

/-- One entry of the updateData object given to TaskManager.updateTask: the
six columns of the allow-list carry typed values, every other key is an
`unknown` entry recording just the key string. -/
inductive UpdEntry
  | name (v : String)
  | description (v : Option String)
  | url (v : String)
  | status (v : TStatus)
  | config (v : TaskConfig)
  | scheduledFor (v : Option Int)
  | unknown (key : String)

/-- The column name of an update entry. -/
def entryKey : UpdEntry → String
  | UpdEntry.name _ => "name"
  | UpdEntry.description _ => "description"
  | UpdEntry.url _ => "url"
  | UpdEntry.status _ => "status"
  | UpdEntry.config _ => "config"
  | UpdEntry.scheduledFor _ => "scheduled_for"
  | UpdEntry.unknown k => k

/-- `const allowedFields = ['name', 'description', 'url', 'status', 'config',
'scheduled_for']` in TaskManager.updateTask. -/
def allowedFields : List String :=
  ["name", "description", "url", "status", "config", "scheduled_for"]

/-- Whether one update entry is well formed: an `unknown` entry must carry a
key outside the allow-list (an allow-listed key is represented by its typed
constructor). -/
def wfEntry : UpdEntry → Bool
  | UpdEntry.unknown k => !(allowedFields.contains k)
  | _ => true

/-- An update list is well formed when all its entries are. -/
def wfUpd (upd : List UpdEntry) : Prop :=
  ∀ e ∈ upd, wfEntry e = true

instance wfUpdDecidable (upd : List UpdEntry) : Decidable (wfUpd upd) :=
  List.decidableBAll _ upd

/-- The body of the update loop of TaskManager.updateTask: an entry is applied
only when its key passes the `allowedFields.includes(key)` check, otherwise it
is silently dropped. -/
def applyEntry (t : Task) (e : UpdEntry) : Task :=
  if allowedFields.contains (entryKey e) then
    match e with
    | UpdEntry.name v => { t with name := v }
    | UpdEntry.description v => { t with description := v }
    | UpdEntry.url v => { t with url := v }
    | UpdEntry.status v => { t with status := v }
    | UpdEntry.config v => { t with config := v }
    | UpdEntry.scheduledFor v => { t with scheduledFor := v }
    | UpdEntry.unknown _ => t
  else t

/-- TaskManager.updateTask: builds the SET clause from the allow-listed
entries, always appends `updated_at = CURRENT_TIMESTAMP`, runs
`UPDATE tasks SET ... WHERE id = $n RETURNING *` and throws the NotFound
error when no row matched. `now` stands for CURRENT_TIMESTAMP. -/
def updateTask (now : Int) (db : DB) (taskId : Nat) (upd : List UpdEntry) :
    DB × Except SvcErr Task :=
  let f : Task → Task := fun u => { upd.foldl applyEntry u with updatedAt := now }
  match findTask db taskId with
  | none => (db, Except.error (SvcErr.notFound (notFoundMsg taskId)))
  | some t =>
      ({ db with tasks := db.tasks.map (fun u => if u.id == taskId then f u else u) },
       Except.ok (f t))

/-- The taskData object given to TaskManager.createTask; absent JS fields are
`none` (node-postgres sends them as SQL NULL). -/
structure CreateData where
  name : Option String := none
  description : Option String := none
  url : Option String := none
  config : Option TaskConfig := none
  scheduledFor : Option Int := none
  userId : Option Nat := none

/-- TaskManager.createTask: inserts the row with status `pending` and returns
it. The function itself performs no field validation; the NOT NULL
constraints of schema.sql (name, url, and config, whose default is overridden
by the explicit NULL parameter) are enforced by the store and their violation
is re-thrown. -/
def createTask (now : Int) (db : DB) (d : CreateData) : DB × Except SvcErr Task :=
  match d.name with
  | none => (db, Except.error (SvcErr.notNull "name"))
  | some nm =>
    match d.url with
    | none => (db, Except.error (SvcErr.notNull "url"))
    | some u =>
      match d.config with
      | none => (db, Except.error (SvcErr.notNull "config"))
      | some cfg =>
        let t : Task :=
          { id := db.nextTaskId, name := nm, description := d.description,
            url := u, status := TStatus.pending, createdAt := now,
            updatedAt := now, scheduledFor := d.scheduledFor, config := cfg,
            userId := d.userId }
        ({ db with tasks := db.tasks ++ [t], nextTaskId := db.nextTaskId + 1 },
         Except.ok t)

/-- The WHERE clause of getPendingTasks:
`status = 'pending' AND (scheduled_for IS NULL OR scheduled_for <= now)`. -/
def pendingFilter (now : Int) (t : Task) : Bool :=
  (match t.status with
    | TStatus.pending => true
    | _ => false)
  && (match t.scheduledFor with
    | none => true
    | some s => decide (s ≤ now))

/-- The comparator of `ORDER BY scheduled_for ASC NULLS LAST`: a NULL key
sorts after every non-NULL key. -/
def schedLE (a b : Task) : Prop :=
  match a.scheduledFor, b.scheduledFor with
  | none, none => True
  | none, some _ => False
  | some _, none => True
  | some x, some y => x ≤ y

instance schedLEDecidable : DecidableRel schedLE := by
  intro a b
  unfold schedLE
  cases a.scheduledFor <;> cases b.scheduledFor <;> infer_instance

instance schedLETotal : IsTotal Task schedLE := by
  constructor
  intro a b
  unfold schedLE
  cases a.scheduledFor <;> cases b.scheduledFor <;> simp
  apply Int.le_total

instance schedLETrans : IsTrans Task schedLE := by
  constructor
  intro a b c hab hbc
  unfold schedLE at *
  cases ha : a.scheduledFor <;> cases hb : b.scheduledFor <;>
    cases hc : c.scheduledFor <;> simp_all
  omega

/-- TaskManager.getPendingTasks: the rows passing `pendingFilter`, sorted by
the NULLS LAST comparator (`ORDER BY scheduled_for ASC NULLS LAST`). -/
def getPendingTasks (now : Int) (db : DB) : List Task :=
  List.insertionSort schedLE (db.tasks.filter (pendingFilter now))

/-! ## The execution environment

executeTask drives the browser engine and the OpenAI API. Each external call
is an awaited promise that either resolves or rejects; an `ExecEnv` fixes the
outcome of every such call for one run (plus the clock readings), so theorems
quantifying over `ExecEnv` cover every combination of step outcomes. -/

/-- The outcomes of the external calls made during one executeTask run.
Errors are carried as their message strings. -/
structure ExecEnv where
  /-- whether browserService.browser is already non-null at entry -/
  browserUp : Bool := true
  /-- outcome of browserService.initialize() (chromium.launch) -/
  initB : Except String Unit := Except.ok ()
  /-- outcome of browserService.createContext(...) -/
  ctxCreate : Except String Unit := Except.ok ()
  /-- outcome of browserService.login(credentials) -/
  loginStep : Except String Unit := Except.ok ()
  /-- outcome of browserService.navigate(task.url) -/
  navStep : Except String Unit := Except.ok ()
  /-- outcome of browserService.extractData, resolving to the raw data blob -/
  extractStep : Except String String := Except.ok ""
  /-- outcome of openaiService.processData, resolving to the normalized blob -/
  aiStep : Except String String := Except.ok ""
  /-- outcome of browserService.takeScreenshot, resolving to the buffer size -/
  shotStep : Except String Nat := Except.ok 0
  /-- whether browserService.context is truthy when the finally block runs -/
  ctxLive : Bool := true
  /-- outcome of browserService.context.close() in the finally block -/
  ctxClose : Except String Unit := Except.ok ()
  /-- Date.now() before the inner attempt -/
  startTime : Int := 0
  /-- CURRENT_TIMESTAMP / Date.now() at the end of the run -/
  endTime : Int := 0

/-- The observable outcome of the inner try of executeTask (steps a-g of the
spec): the captured error message if any step threw, the rawData and
normalizedData variables as assigned so far, and the info-level log messages
emitted along the way. -/
def innerRun (env : ExecEnv) (cfg : TaskConfig) :
    Option String × Option String × Option String × List (String × String) :=
  match (if env.browserUp then Except.ok () else env.initB) with
  | Except.error e => (some e, none, none, [])
  | Except.ok _ =>
  match env.ctxCreate with
  | Except.error e => (some e, none, none, [])
  | Except.ok _ =>
  match (if cfg.credentials.isSome then env.loginStep else Except.ok ()) with
  | Except.error e => (some e, none, none, [])
  | Except.ok _ =>
  let logs0 : List (String × String) :=
    if cfg.credentials.isSome then [("info", "Login successful")] else []
  match env.navStep with
  | Except.error e => (some e, none, none, logs0)
  | Except.ok _ =>
  match env.extractStep with
  | Except.error e => (some e, none, none, logs0)
  | Except.ok raw =>
  let logs1 := logs0 ++ [("info", "Data extraction completed")]
  match (if cfg.processWithAI then env.aiStep else Except.ok raw) with
  | Except.error e => (some e, some raw, none, logs1)
  | Except.ok norm =>
  let logs2 := logs1 ++
    (if cfg.processWithAI then [("info", "AI processing completed")] else [])
  match (if cfg.takeScreenshot then env.shotStep.map (fun _ => ()) else Except.ok ()) with
  | Except.error e => (some e, some raw, some norm, logs2)
  | Except.ok _ =>
  let logs3 := logs2 ++
    (if cfg.takeScreenshot then [("info", "Screenshot captured")] else [])
  (none, some raw, some norm, logs3)

/-- The value resolved by executeTask on success. -/
structure ExecSummary where
  taskId : Nat
  resultId : Nat
  status : TStatus
  processingTime : Int
  error : Option String
  rawData : Option String
  normalizedData : Option String

/-- The updateData object of the best-effort failure marking in the outer
catch of executeTask: `{ status: 'failed', error: ..., completed_at: ... }`.
The error and completed_at keys are outside the allow-list of updateTask and
are silently dropped there. -/
def failMarkUpd : List UpdEntry :=
  [UpdEntry.status TStatus.failed, UpdEntry.unknown "error",
   UpdEntry.unknown "completed_at"]

/-- The outer catch of executeTask: logs to the console, best-effort marks the
task failed via updateTask (whose own failure propagates instead, skipping the
rest), appends the failure log entry and re-throws the original error. -/
def outerCatch (env : ExecEnv) (db : DB) (taskId : Nat) (e : SvcErr) :
    DB × Except SvcErr ExecSummary :=
  match updateTask env.endTime db taskId failMarkUpd with
  | (db1, Except.error e2) => (db1, Except.error e2)
  | (db1, Except.ok _) =>
      (logTask db1 taskId "error" ("Task execution failed: " ++ msgOf e),
       Except.error e)
where
  /-- error.message of the caught error -/
  msgOf : SvcErr → String
    | SvcErr.notFound m => m
    | SvcErr.notNull c => "null value in column " ++ c
    | SvcErr.validation m => m
    | SvcErr.stepErr m => m

/-- The store writes of executeTask up to and including the inner failure
boundary: mark the task running, append the start log, append the logs of the
inner attempt and, when the inner attempt threw, the captured error log. -/
def execLogsPhase (env : ExecEnv) (db : DB) (taskId : Nat) (task : Task) : DB :=
  let db1 := (updateTask env.startTime db taskId [UpdEntry.status TStatus.running]).1
  let db2 := logTask db1 taskId "info" "Task execution started"
  let ir := innerRun env task.config
  let db3 := ir.2.2.2.foldl (fun d p => logTask d taskId p.1 p.2) db2
  match ir.1 with
  | some e => logTask db3 taskId "error" ("Task execution failed: " ++ e)
  | none => db3

/-- The transactional tail of executeTask: insert the task_results row and
write the terminal task status in one transaction, append the final log entry
and resolve with the summary. -/
def execTransaction (env : ExecEnv) (db4 : DB) (taskId : Nat)
    (errMsg raw norm : Option String) : DB × Except SvcErr ExecSummary :=
  let ptime := env.endTime - env.startTime
  let st := if errMsg.isSome then TStatus.failed else TStatus.completed
  let row : ResultRow :=
    { id := db4.nextResultId, taskId := taskId, rawData := raw,
      normalizedData := norm, processingTime := ptime, status := st,
      error := errMsg }
  let db5 : DB :=
    { db4 with
      results := db4.results ++ [row],
      nextResultId := db4.nextResultId + 1,
      tasks := db4.tasks.map (fun t =>
        if t.id == taskId then
          { t with status := st, completedAt := some env.endTime,
                   error := errMsg, updatedAt := env.endTime }
        else t) }
  let db6 := logTask db5 taskId "info"
    ("Task execution " ++ (if errMsg.isSome then "failed" else "completed"))
  (db6, Except.ok
    { taskId := taskId, resultId := row.id, status := st,
      processingTime := ptime, error := errMsg, rawData := raw,
      normalizedData := norm })

/-- The body of executeTask once the task row has loaded: run the logged
phases, close the context in the finally block (a close failure propagates to
the outer catch), then run the transactional tail. -/
def execBody (env : ExecEnv) (db : DB) (taskId : Nat) (task : Task) :
    DB × Except SvcErr ExecSummary :=
  let db4 := execLogsPhase env db taskId task
  let ir := innerRun env task.config
  match (if env.ctxLive then env.ctxClose else Except.ok ()) with
  | Except.error e => outerCatch env db4 taskId (SvcErr.stepErr e)
  | Except.ok _ => execTransaction env db4 taskId ir.1 ir.2.1 ir.2.2.1

/-- TaskManager.executeTask: load the task — a missing row throws the
NotFound error into the outer catch — and run the execution body. -/
def executeTask (env : ExecEnv) (db : DB) (taskId : Nat) :
    DB × Except SvcErr ExecSummary :=
  match findTask db taskId with
  | none => outerCatch env db taskId (SvcErr.notFound (notFoundMsg taskId))
  | some task => execBody env db taskId task

/-! ## BrowserService.extractData

The page is modelled by the result of querying a selector: `none` means the
query itself throws (for example an invalid selector), `some els` the list of
matching elements. -/

/-- A DOM element as read by the evaluation callbacks: text content, inner
HTML, and attributes. -/
structure Elem where
  textContent : String
  innerHTML : String
  attrs : List (String × String) := []

/-- el.getAttribute(name): null when the attribute is absent. -/
def getAttr (e : Elem) (a : String) : Option String :=
  (e.attrs.find? (fun p => p.1 == a)).map (fun p => p.2)

/-- The page handle: resolving a selector either throws (`none`) or yields
the matched elements in document order. -/
structure PageModel where
  query : String → Option (List Elem)

/-- JS truthiness of the destructured `attribute` option (undefined and the
empty string are falsy). -/
def attrTruthy : Option String → Bool
  | none => false
  | some s => !(s == "")

/-- The per-element evaluation callback of extractData: text content for
type 'text', inner HTML for 'html', getAttribute for 'attribute' with a
truthy attribute name, text content otherwise. Returns `none` exactly when
getAttribute yields null. -/
def evalElem (ty : String) (attr : Option String) (e : Elem) : Option String :=
  if ty == "text" then some e.textContent.trim
  else if ty == "html" then some e.innerHTML.trim
  else if ty == "attribute" && attrTruthy attr then
    getAttr e (attr.getD "")
  else some e.textContent.trim

/-- The value stored for one field of the extraction result: `one` for a
single-element selector (null when nothing was found), `many` for a
multiple-element selector. -/
inductive FieldVal
  | one (v : Option String)
  | many (vs : List (Option String))
deriving DecidableEq

/-- Processing of one selector descriptor inside the extraction loop.
With `multiple` the `page.$$eval` call maps the callback over all matches and
an evaluation failure (such as an invalid selector) is thrown; without
`multiple` the `page.$eval` call targets the first match and carries
`.catch(() => null)`, so every failure — no element as well as an invalid
selector — resolves to null. -/
def processItem (page : PageModel) (item : SelectorItem) : Except SvcErr FieldVal :=
  if item.multiple then
    match page.query item.selector with
    | none => Except.error (SvcErr.stepErr ("selector failed: " ++ item.selector))
    | some els => Except.ok (FieldVal.many (els.map (evalElem item.ty item.attr)))
  else
    match page.query item.selector with
    | none => Except.ok (FieldVal.one none)
    | some [] => Except.ok (FieldVal.one none)
    | some (e :: _) => Except.ok (FieldVal.one (evalElem item.ty item.attr e))

/-- Key/value assignment on a JS object or storage represented as an
association list in insertion order: overwrite the entry with the key if
present, append otherwise. -/
def assocSet {β : Type} (l : List (String × β)) (k : String) (v : β) :
    List (String × β) :=
  if l.any (fun p => p.1 == k) then
    l.map (fun p => if p.1 == k then (k, v) else p)
  else l ++ [(k, v)]

/-- Key lookup on such an association list. -/
def lookupAssoc {β : Type} (l : List (String × β)) (k : String) : Option β :=
  (l.find? (fun p => p.1 == k)).map (fun p => p.2)

/-- `result[name] = v` on the JS result object. -/
def setField (acc : List (String × FieldVal)) (k : String) (v : FieldVal) :
    List (String × FieldVal) :=
  assocSet acc k v

/-- Reading a field of the result object. -/
def lookupField (r : List (String × FieldVal)) (k : String) : Option FieldVal :=
  lookupAssoc r k

/-- The selector loop of BrowserService.extractData: the first thrown error
aborts the whole extraction; otherwise the result object is built up field by
field. (The optional pre-navigation on extractionConfig.url is part of the
driver environment and is not taken by the executeTask call path, which
passes only selectors.) -/
def extractLoop (page : PageModel) :
    List SelectorItem → List (String × FieldVal) → Except SvcErr (List (String × FieldVal))
  | [], acc => Except.ok acc
  | item :: rest, acc =>
      match processItem page item with
      | Except.error e => Except.error e
      | Except.ok v => extractLoop page rest (setField acc item.name v)

/-- BrowserService.extractData over its selector list. -/
def extractData (page : PageModel) (selectors : List SelectorItem) :
    Except SvcErr (List (String × FieldVal)) :=
  extractLoop page selectors []

/-! ## BrowserService session persistence (saveUserData / loadStoredUserData) -/

/-- A live browsing context: its cookie set, keyed by cookie identity. -/
structure Ctx where
  cookies : List (String × String)

/-- A live page: its window.localStorage key/value mapping. -/
structure PageState where
  storage : List (String × String)

/-- The mutable browser-service state used by the session operations. -/
structure BState where
  context : Option Ctx := none
  page : Option PageState := none

/-- Upsert of one key/value pair into an association list: existing entries
with the key are overwritten, otherwise the pair is appended. This is the
behaviour of both context.addCookies for one cookie and
localStorage.setItem. -/
def upsertKV (l : List (String × String)) (k v : String) : List (String × String) :=
  assocSet l k v

/-- Applying a list of key/value pairs in order (context.addCookies with a
cookie array; the localStorage restore loop). -/
def applyKVs (l new : List (String × String)) : List (String × String) :=
  new.foldl (fun acc p => upsertKV acc p.1 p.2) l

/-- BrowserService.saveUserData: requires a context (returns false otherwise);
reading localStorage needs the page, and the throw from a null page is caught
by the surrounding try which returns false without storing; otherwise the
cookie set and localStorage mapping are serialized together and upserted into
the user_data row keyed by the domain, resolving true. -/
def saveUserData (domain : String) (bs : BState) (db : DB) : DB × Bool :=
  match bs.context with
  | none => (db, false)
  | some ctx =>
    match bs.page with
    | none => (db, false)
    | some pg =>
      let ud : UserData := { cookies := ctx.cookies, localStorage := pg.storage }
      ({ db with userData := assocSet db.userData domain ud }, true)

/-- BrowserService.loadStoredUserData: requires a context (false otherwise);
a missing row is a no-op resolving false; otherwise the stored cookies are
re-added to the context and, when a page is live, the stored localStorage
entries are re-applied, resolving true. -/
def loadStoredUserData (domain : String) (bs : BState) (db : DB) : BState × Bool :=
  match bs.context with
  | none => (bs, false)
  | some ctx =>
    match db.userData.find? (fun p => p.1 == domain) with
    | none => (bs, false)
    | some (_, ud) =>
      let bs1 : BState := { bs with context := some ⟨applyKVs ctx.cookies ud.cookies⟩ }
      match bs.page with
      | none => (bs1, true)
      | some pg =>
          ({ bs1 with page := some ⟨applyKVs pg.storage ud.localStorage⟩ }, true)

/-! ## OpenAIService.processData (json path)

The model-generated response text is the oracle input; the JSON extraction
regexes of the source are implemented character by character:
first regex (leftmost match, lazy body, optional `json` tag) and the
fallback brace regex (first opening brace having a later closing brace,
greedy up to the last closing brace). JSON.parse is a parameter, since only
the extraction and error structure are under verification. -/

/-- If `pre` is a prefix of `s`, return the remainder. -/
def stripPre : List Char → List Char → Option (List Char)
  | [], s => some s
  | _ :: _, [] => none
  | p :: ps, c :: cs => if p == c then stripPre ps cs else none

/-- Scan for the earliest occurrence of the closing delimiter `"\n` ++ three
backticks, returning the characters before it. -/
def scanStop : List Char → Option (List Char)
  | [] => none
  | c :: rest =>
      if (stripPre ['\n', '`', '`', '`'] (c :: rest)).isSome then some []
      else (scanStop rest).map (fun pre => c :: pre)

/-- The lazy body group of the fenced-block regex: at least one character, up
to the earliest closing delimiter. -/
def fencedBody : List Char → Option (List Char)
  | [] => none
  | c :: rest => (scanStop rest).map (fun pre => c :: pre)

/-- Match the whole fenced-block regex at the current position: three
backticks, an optional `json` tag, a newline, the lazy body, the closing
delimiter. -/
def fencedAt (s : List Char) : Option (List Char) :=
  match stripPre ['`', '`', '`'] s with
  | none => none
  | some r1 =>
    match stripPre ['j', 's', 'o', 'n', '\n'] r1 with
    | some r2 => fencedBody r2
    | none =>
      match stripPre ['\n'] r1 with
      | some r2 => fencedBody r2
      | none => none

/-- The leftmost match of the fenced-block regex over the whole content. -/
def fencedMatch : List Char → Option (List Char)
  | [] => none
  | c :: rest =>
      match fencedAt (c :: rest) with
      | some b => some b
      | none => fencedMatch rest

/-- The prefix of `s` up to and including its last closing brace, if any. -/
def upToLastRB : List Char → Option (List Char)
  | [] => none
  | c :: rest =>
      match upToLastRB rest with
      | some t => some (c :: t)
      | none => if c == '}' then some [c] else none

/-- The fallback brace regex: leftmost opening brace that has a closing brace
after it, matched greedily up to the last closing brace of the content. -/
def braceMatch : List Char → Option (List Char)
  | [] => none
  | c :: rest =>
      if c == '{' then
        match upToLastRB rest with
        | some t => some ('{' :: t)
        | none => braceMatch rest
      else braceMatch rest

/-- `const jsonString = jsonMatch ? jsonMatch[1] : content` with
`jsonMatch = content.match(fenced) || content.match(braces)`. -/
def jsonSliceOf (content : List Char) : List Char :=
  match fencedMatch content with
  | some m => m
  | none =>
    match braceMatch content with
    | some m => m
    | none => content

/-- The outcome of OpenAIService.processData: a parsed value, the structured
parse-failure object `{ error, content }`, or the plain `{ content }` wrapper
of non-json formats. -/
inductive ProcOut (α : Type)
  | parsed (v : α)
  | parseFail (message : String) (content : List Char)
  | plain (content : List Char)

/-- OpenAIService.processData after the chat completion resolved to
`content`, parameterized by JSON.parse: on json format the extracted slice is
parsed, a parse failure being converted to the structured error object rather
than re-thrown; other formats wrap the content unparsed. -/
def processData {α : Type} (parse : List Char → Option α) (format : String)
    (content : List Char) : ProcOut α :=
  if format == "json" then
    match parse (jsonSliceOf content) with
    | some v => ProcOut.parsed v
    | none => ProcOut.parseFail "Failed to parse JSON response" content
  else ProcOut.plain content

/-- Modelled from the spec (section 4.4): the extraction target described in
words — "first looking for a fenced code block, falling back to the first
brace-delimited substring", the content itself when neither matches. Stated
separately from `jsonSliceOf` so the code can be proved to follow it. -/
def specSelect (content : List Char) : List Char :=
  match fencedMatch content with
  | some m => m
  | none => (braceMatch content).getD content

/-! ## Concrete instances used by counterexamples and witnesses -/

/-- The transition relation described by the spec invariant:
pending to running, running to completed, running to failed. Modelled from
the spec words, to be compared with what the code enforces. -/
def specTransitions : List (TStatus × TStatus) :=
  [(TStatus.pending, TStatus.running),
   (TStatus.running, TStatus.completed),
   (TStatus.running, TStatus.failed)]

/-- Claim order stated by C3: a task with NULL scheduled_for is never placed
after a task with non-NULL scheduled_for (nulls first). Modelled from the
spec words. -/
def nullsFirstOrder (l : List Task) : Prop :=
  l.Pairwise (fun a b => a.scheduledFor ≠ none → b.scheduledFor ≠ none)

/-- The order the code produces: once a NULL scheduled_for appears, only NULL
ones follow (nulls last). -/
def nullsLastOrder (l : List Task) : Prop :=
  l.Pairwise (fun a b => a.scheduledFor = none → b.scheduledFor = none)

/-- A pending task without schedule. -/
def c3taskA : Task := { id := 1, name := "unscheduled", status := TStatus.pending }

/-- A pending task scheduled in the past (now = 10). -/
def c3taskB : Task :=
  { id := 2, name := "scheduled", status := TStatus.pending, scheduledFor := some 5 }

/-- Store holding both C3 tasks. -/
def c3db : DB := { tasks := [c3taskA, c3taskB] }

/-- A task already completed, for the C4 counterexample. -/
def c4task : Task := { id := 1, name := "done", status := TStatus.completed }

/-- Store holding the completed task. -/
def c4db : DB := { tasks := [c4task] }

/-- createTask input with the required name missing (url and config given). -/
def c5data : CreateData :=
  { url := some "https://example.com/products", config := some {} }

/-- A pending task used by the execution witnesses. -/
def wTask : Task := { id := 1, name := "demo", url := "https://example.com",
                      status := TStatus.pending }

/-- Store holding the pending witness task. -/
def wDb : DB := { tasks := [wTask] }

/-- An environment whose extraction step throws. -/
def wEnvFail : ExecEnv := { extractStep := Except.error "boom" }

/-- An environment whose inner steps all succeed but whose context close in
the finally block rejects. -/
def wEnvClose : ExecEnv := { ctxClose := Except.error "close failed" }

/-- A concrete DOM element. -/
def wElem : Elem := { textContent := " hi ", innerHTML := "<b>hi</b>" }

/-- A concrete page: one selector matching nothing, one matching a single
element, anything else failing (invalid selector). -/
def wPage : PageModel :=
  { query := fun s =>
      if s == "#empty" then some []
      else if s == "#one" then some [wElem]
      else none }

/-- A multiple-element selector over the empty match. -/
def wSelMulti : SelectorItem :=
  { name := "xs", selector := "#empty", multiple := true }

/-- A single-element selector over the empty match. -/
def wSelSingle : SelectorItem := { name := "x", selector := "#empty" }

/-- A single-element selector whose query fails. -/
def wSelBad : SelectorItem := { name := "y", selector := "#bad" }

/-- A multiple-element selector whose query fails. -/
def wSelBadMulti : SelectorItem :=
  { name := "ys", selector := "#bad", multiple := true }

/-- A single-element selector over the one-element match. -/
def wSelOne : SelectorItem := { name := "z", selector := "#one" }

/-- A live browser state with one cookie and one storage entry. -/
def wBState : BState :=
  { context := some ⟨[("sid", "abc")]⟩, page := some ⟨[("k", "v")]⟩ }

/-- A model response wrapping a JSON object in a fenced code block. -/
def demoFenced : List Char := ("```json\n\x7b\"price\":\"9.99\"\x7d\n```").toList

/-- The JSON object inside the fenced block. -/
def demoObj : List Char := ("\x7b\"price\":\"9.99\"\x7d").toList

/-- A model response with a brace-delimited object inside prose. -/
def demoWrapped : List Char := ("Here: \x7b\"a\":1\x7d done").toList

/-- The brace-delimited substring of the prose response. -/
def demoInner : List Char := ("\x7b\"a\":1\x7d").toList

/-- A model response that is not JSON at all. -/
def demoBad : List Char := ("not json").toList

/-! ## General lemmas about the store operations -/

/-- Updating in place the rows matching an id keeps lookups pointed at the
updated row, provided the update preserves the id. -/
theorem find_map_update {l : List Task} {taskId : Nat} {t : Task}
    (f : Task → Task) (hid : ∀ u, (f u).id = u.id)
    (h : l.find? (fun u => u.id == taskId) = some t) :
    (l.map (fun u => if u.id == taskId then f u else u)).find?
      (fun u => u.id == taskId) = some (f t) := by
  induction l with
  | nil => simp at h
  | cons a l ih =>
    cases ha : (a.id == taskId) with
    | false =>
      simp only [List.find?_cons, ha] at h
      have hneg : ¬((a.id == taskId) = true) := by simp [ha]
      have hrec := ih h
      rw [List.map_cons, if_neg hneg, List.find?_cons, ha]
      exact hrec
    | true =>
      simp only [List.find?_cons, ha] at h
      injection h with h
      subst h
      have hp : a.id = taskId := by simpa using ha
      have hfa : (f a).id = taskId := by rw [hid a]; exact hp
      simp [List.find?_cons, hp, hfa]

theorem applyEntry_id (t : Task) (e : UpdEntry) : (applyEntry t e).id = t.id := by
  unfold applyEntry
  split
  · cases e <;> rfl
  · rfl

theorem foldl_applyEntry_id (upd : List UpdEntry) (t : Task) :
    (upd.foldl applyEntry t).id = t.id := by
  induction upd generalizing t with
  | nil => rfl
  | cons e rest ih => rw [List.foldl_cons, ih, applyEntry_id]

/-- The row transformer of updateTask. -/
def updRow (now : Int) (upd : List UpdEntry) (u : Task) : Task :=
  { upd.foldl applyEntry u with updatedAt := now }

theorem updRow_id (now : Int) (upd : List UpdEntry) (u : Task) :
    (updRow now upd u).id = u.id := by
  unfold updRow
  exact foldl_applyEntry_id upd u

theorem updateTask_missing {now : Int} {db : DB} {taskId : Nat}
    {upd : List UpdEntry} (h : findTask db taskId = none) :
    updateTask now db taskId upd =
      (db, Except.error (SvcErr.notFound (notFoundMsg taskId))) := by
  unfold updateTask
  rw [h]

theorem updateTask_found {now : Int} {db : DB} {taskId : Nat}
    {upd : List UpdEntry} {t : Task} (h : findTask db taskId = some t) :
    updateTask now db taskId upd =
      ({ db with tasks := db.tasks.map (fun u =>
          if u.id == taskId then updRow now upd u else u) },
       Except.ok (updRow now upd t)) := by
  unfold updateTask updRow
  rw [h]

theorem updateTask_fst_results (now : Int) (db : DB) (taskId : Nat)
    (upd : List UpdEntry) : ((updateTask now db taskId upd).1).results = db.results := by
  cases h : findTask db taskId
  · rw [updateTask_missing h]
  · rw [updateTask_found h]

theorem updateTask_find {now : Int} {db : DB} {taskId : Nat}
    {upd : List UpdEntry} {t : Task} (h : findTask db taskId = some t) :
    findTask (updateTask now db taskId upd).1 taskId = some (updRow now upd t) := by
  rw [updateTask_found h]
  exact find_map_update _ (updRow_id now upd) h

theorem logTask_results (db : DB) (taskId : Nat) (level msg : String) :
    (logTask db taskId level msg).results = db.results := by
  unfold logTask
  split <;> rfl

theorem logTask_tasks (db : DB) (taskId : Nat) (level msg : String) :
    (logTask db taskId level msg).tasks = db.tasks := by
  unfold logTask
  split <;> rfl

theorem logTask_nextResultId (db : DB) (taskId : Nat) (level msg : String) :
    (logTask db taskId level msg).nextResultId = db.nextResultId := by
  unfold logTask
  split <;> rfl

theorem foldlLog_results (L : List (String × String)) (db : DB) (taskId : Nat) :
    (L.foldl (fun d p => logTask d taskId p.1 p.2) db).results = db.results := by
  induction L generalizing db with
  | nil => rfl
  | cons p rest ih => rw [List.foldl_cons, ih, logTask_results]

theorem foldlLog_tasks (L : List (String × String)) (db : DB) (taskId : Nat) :
    (L.foldl (fun d p => logTask d taskId p.1 p.2) db).tasks = db.tasks := by
  induction L generalizing db with
  | nil => rfl
  | cons p rest ih => rw [List.foldl_cons, ih, logTask_tasks]

theorem foldlLog_nextResultId (L : List (String × String)) (db : DB) (taskId : Nat) :
    (L.foldl (fun d p => logTask d taskId p.1 p.2) db).nextResultId = db.nextResultId := by
  induction L generalizing db with
  | nil => rfl
  | cons p rest ih => rw [List.foldl_cons, ih, logTask_nextResultId]

theorem executeTask_missing {env : ExecEnv} {db : DB} {taskId : Nat}
    (h : findTask db taskId = none) :
    executeTask env db taskId =
      (db, Except.error (SvcErr.notFound (notFoundMsg taskId))) := by
  unfold executeTask
  rw [h]
  unfold outerCatch
  rw [updateTask_missing h]

theorem executeTask_found {env : ExecEnv} {db : DB} {taskId : Nat} {task : Task}
    (h : findTask db taskId = some task) :
    executeTask env db taskId = execBody env db taskId task := by
  unfold executeTask
  rw [h]

/-- When the task row exists, the outer catch marks it failed (through the
allow-list, so only the status is written), appends the failure log entry and
re-throws the caught error. -/
theorem outerCatch_found {env : ExecEnv} {db : DB} {taskId : Nat} {t : Task}
    (hfind : findTask db taskId = some t) (e : SvcErr) :
    outerCatch env db taskId e =
      (logTask (updateTask env.endTime db taskId failMarkUpd).1 taskId "error"
        ("Task execution failed: " ++ outerCatch.msgOf e), Except.error e) := by
  unfold outerCatch
  rw [updateTask_found hfind]

/-- With a live context whose close rejects, the body routes the close error
through the outer catch. -/
theorem execBody_closeFail {env : ExecEnv} {db : DB} {taskId : Nat}
    {task : Task} {e : String} (hlive : env.ctxLive = true)
    (hclose : env.ctxClose = Except.error e) :
    execBody env db taskId task =
      outerCatch env (execLogsPhase env db taskId task) taskId
        (SvcErr.stepErr e) := by
  simp only [execBody]
  rw [hlive, hclose]
  rfl

theorem findTask_congr {db1 db2 : DB} (h : db1.tasks = db2.tasks) (taskId : Nat) :
    findTask db1 taskId = findTask db2 taskId := by
  unfold findTask
  rw [h]

theorem findTask_logTask (db : DB) (i j : Nat) (level msg : String) :
    findTask (logTask db i level msg) j = findTask db j :=
  findTask_congr (logTask_tasks db i level msg) j

theorem execLogsPhase_results (env : ExecEnv) (db : DB) (taskId : Nat) (task : Task) :
    (execLogsPhase env db taskId task).results = db.results := by
  unfold execLogsPhase
  cases hE : (innerRun env task.config).1 <;>
    simp [hE, logTask_results, foldlLog_results, updateTask_fst_results]

theorem execLogsPhase_tasks (env : ExecEnv) (db : DB) (taskId : Nat) (task : Task) :
    (execLogsPhase env db taskId task).tasks =
      ((updateTask env.startTime db taskId [UpdEntry.status TStatus.running]).1).tasks := by
  unfold execLogsPhase
  cases hE : (innerRun env task.config).1 <;>
    simp [hE, logTask_tasks, foldlLog_tasks]

theorem execLogsPhase_find {env : ExecEnv} {db : DB} {taskId : Nat} {task t0 : Task}
    (hfind : findTask db taskId = some t0) :
    findTask (execLogsPhase env db taskId task) taskId =
      some (updRow env.startTime [UpdEntry.status TStatus.running] t0) := by
  rw [findTask_congr (execLogsPhase_tasks env db taskId task) taskId]
  exact updateTask_find hfind

/-- The row transformer of the transactional task update. -/
def finalRow (env : ExecEnv) (errMsg : Option String) (t : Task) : Task :=
  { t with status := (if errMsg.isSome then TStatus.failed else TStatus.completed),
           completedAt := some env.endTime, error := errMsg,
           updatedAt := env.endTime }

theorem execTransaction_eq (env : ExecEnv) (dbT : DB) (taskId : Nat)
    (errMsg raw norm : Option String) :
    execTransaction env dbT taskId errMsg raw norm =
      (logTask
        { dbT with
          results := dbT.results ++
            [{ id := dbT.nextResultId, taskId := taskId, rawData := raw,
               normalizedData := norm,
               processingTime := env.endTime - env.startTime,
               status := (if errMsg.isSome then TStatus.failed else TStatus.completed),
               error := errMsg }],
          nextResultId := dbT.nextResultId + 1,
          tasks := dbT.tasks.map (fun t =>
            if t.id == taskId then finalRow env errMsg t else t) }
        taskId "info"
        ("Task execution " ++ (if errMsg.isSome then "failed" else "completed")),
       Except.ok
        { taskId := taskId, resultId := dbT.nextResultId,
          status := (if errMsg.isSome then TStatus.failed else TStatus.completed),
          processingTime := env.endTime - env.startTime, error := errMsg,
          rawData := raw, normalizedData := norm }) := rfl

theorem execTransaction_results (env : ExecEnv) (dbT : DB) (taskId : Nat)
    (errMsg raw norm : Option String) :
    ((execTransaction env dbT taskId errMsg raw norm).1).results =
      dbT.results ++
        [{ id := dbT.nextResultId, taskId := taskId, rawData := raw,
           normalizedData := norm,
           processingTime := env.endTime - env.startTime,
           status := (if errMsg.isSome then TStatus.failed else TStatus.completed),
           error := errMsg }] := by
  rw [execTransaction_eq]
  rw [logTask_results]

theorem execTransaction_find {dbT : DB} {taskId : Nat} {t4 : Task}
    (env : ExecEnv) (errMsg raw norm : Option String)
    (hfind : findTask dbT taskId = some t4) :
    findTask (execTransaction env dbT taskId errMsg raw norm).1 taskId =
      some (finalRow env errMsg t4) := by
  rw [execTransaction_eq]
  rw [findTask_logTask]
  unfold findTask at hfind ⊢
  exact find_map_update _ (fun u => rfl) hfind

/-- With a successful context close, the body reduces to the transactional
tail applied to the logged state and the inner outcome. -/
theorem execBody_eq_transaction (env : ExecEnv) (db : DB) (taskId : Nat)
    (task : Task) (hclose : env.ctxClose = Except.ok ()) :
    execBody env db taskId task =
      execTransaction env (execLogsPhase env db taskId task) taskId
        (innerRun env task.config).1 (innerRun env task.config).2.1
        (innerRun env task.config).2.2.1 := by
  unfold execBody
  rw [hclose, ite_self]

/-- Full characterization of a run whose context close succeeds: the call
resolves, exactly one result row is appended, and the task row ends in the
matching terminal status. -/
theorem execBody_run (env : ExecEnv) (db : DB) (taskId : Nat) (task : Task)
    (hfind : findTask db taskId = some task)
    (hclose : env.ctxClose = Except.ok ()) :
    ∃ (db' : DB) (row : ResultRow) (s : ExecSummary),
      execBody env db taskId task = (db', Except.ok s) ∧
      db'.results = db.results ++ [row] ∧
      row.taskId = taskId ∧
      row.status = (if (innerRun env task.config).1.isSome then TStatus.failed
                    else TStatus.completed) ∧
      row.error = (innerRun env task.config).1 ∧
      s.status = row.status ∧
      ∃ t2, findTask db' taskId = some t2 ∧ t2.status = row.status := by
  have h4 := @execLogsPhase_find env db taskId task task hfind
  rw [execBody_eq_transaction env db taskId task hclose]
  rw [execTransaction_eq]
  refine ⟨_,
    { id := (execLogsPhase env db taskId task).nextResultId, taskId := taskId,
      rawData := (innerRun env task.config).2.1,
      normalizedData := (innerRun env task.config).2.2.1,
      processingTime := env.endTime - env.startTime,
      status := (if (innerRun env task.config).1.isSome then TStatus.failed
                 else TStatus.completed),
      error := (innerRun env task.config).1 },
    _, rfl, ?_, rfl, rfl, rfl, rfl, ?_⟩
  · rw [logTask_results]
    rw [execLogsPhase_results]
  · refine ⟨finalRow env (innerRun env task.config).1
      (updRow env.startTime [UpdEntry.status TStatus.running] task), ?_, rfl⟩
    rw [findTask_logTask]
    unfold findTask at h4 ⊢
    exact find_map_update _ (fun u => rfl) h4

theorem foldl_applyEntry_filter (upd : List UpdEntry) (t : Task) :
    upd.foldl applyEntry t =
      (upd.filter (fun e => allowedFields.contains (entryKey e))).foldl applyEntry t := by
  induction upd generalizing t with
  | nil => rfl
  | cons e rest ih =>
    cases hc : allowedFields.contains (entryKey e) with
    | true =>
      have hm : entryKey e ∈ allowedFields := by simpa using hc
      have hfe : (e :: rest).filter (fun x => allowedFields.contains (entryKey x)) =
          e :: rest.filter (fun x => allowedFields.contains (entryKey x)) := by
        simp [List.filter_cons, hm]
      rw [List.foldl_cons, hfe, List.foldl_cons]
      exact ih (applyEntry t e)
    | false =>
      have hskip : applyEntry t e = t := by
        unfold applyEntry
        rw [hc]
        rfl
      have hm : ¬(entryKey e ∈ allowedFields) := by simpa using hc
      have hfe : (e :: rest).filter (fun x => allowedFields.contains (entryKey x)) =
          rest.filter (fun x => allowedFields.contains (entryKey x)) := by
        simp [List.filter_cons, hm]
      rw [List.foldl_cons, hskip, hfe]
      exact ih t

/-! ## Association-list lemmas -/

theorem find?_pair_cons_true {β : Type} (q : String × β) (l : List (String × β))
    (k : String) (h : (q.1 == k) = true) :
    (q :: l).find? (fun p => p.1 == k) = some q :=
  @List.find?_cons_of_pos _ (fun p => p.1 == k) q l h

theorem find?_pair_cons_false {β : Type} (q : String × β) (l : List (String × β))
    (k : String) (h : (q.1 == k) = false) :
    (q :: l).find? (fun p => p.1 == k) = l.find? (fun p => p.1 == k) :=
  @List.find?_cons_of_neg _ (fun p => p.1 == k) q l (by simp [h])

theorem find?_map_replace_ne {β : Type} (l : List (String × β)) (nm : String)
    (v : β) (k : String) (h : ¬(nm = k)) :
    (l.map (fun p => if p.1 == nm then (nm, v) else p)).find? (fun p => p.1 == k) =
      l.find? (fun p => p.1 == k) := by
  induction l with
  | nil => rfl
  | cons p rest ih =>
    rw [List.map_cons]
    cases hp : (p.1 == nm) with
    | true =>
      have hp1 : p.1 = nm := by simpa using hp
      have hnmk : (nm == k) = false := by simpa using h
      have hpk : (p.1 == k) = false := by rw [hp1]; exact hnmk
      rw [show (if true = true then (nm, v) else p) = (nm, v) from rfl,
          find?_pair_cons_false (nm, v) _ k hnmk,
          find?_pair_cons_false p rest k hpk]
      exact ih
    | false =>
      rw [show (if false = true then (nm, v) else p) = p from rfl]
      cases hk : (p.1 == k) with
      | true =>
        rw [find?_pair_cons_true p _ k hk, find?_pair_cons_true p rest k hk]
      | false =>
        rw [find?_pair_cons_false p _ k hk, find?_pair_cons_false p rest k hk]
        exact ih

theorem find?_append_single_ne {β : Type} (l : List (String × β)) (nm : String)
    (v : β) (k : String) (h : ¬(nm = k)) :
    (l ++ [(nm, v)]).find? (fun p => p.1 == k) = l.find? (fun p => p.1 == k) := by
  induction l with
  | nil =>
    have hnmk : (nm == k) = false := by simpa using h
    rw [List.nil_append, find?_pair_cons_false (nm, v) [] k hnmk]
  | cons p rest ih =>
    rw [List.cons_append]
    cases hk : (p.1 == k) with
    | true =>
      rw [find?_pair_cons_true p _ k hk, find?_pair_cons_true p rest k hk]
    | false =>
      rw [find?_pair_cons_false p _ k hk, find?_pair_cons_false p rest k hk]
      exact ih

theorem find?_map_replace_self {β : Type} (l : List (String × β)) (nm : String)
    (v : β) (ha : l.any (fun p => p.1 == nm) = true) :
    (l.map (fun p => if p.1 == nm then (nm, v) else p)).find? (fun p => p.1 == nm) =
      some (nm, v) := by
  induction l with
  | nil => simp at ha
  | cons p rest ih =>
    rw [List.map_cons]
    cases hp : (p.1 == nm) with
    | true =>
      rw [show (if true = true then (nm, v) else p) = (nm, v) from rfl,
          find?_pair_cons_true (nm, v) _ nm (by simp)]
    | false =>
      have ha' : rest.any (fun p => p.1 == nm) = true := by
        simpa [List.any_cons, hp] using ha
      rw [show (if false = true then (nm, v) else p) = p from rfl,
          find?_pair_cons_false p _ nm hp]
      exact ih ha'

theorem find?_append_single_self {β : Type} (l : List (String × β)) (nm : String)
    (v : β) (ha : l.any (fun p => p.1 == nm) = false) :
    (l ++ [(nm, v)]).find? (fun p => p.1 == nm) = some (nm, v) := by
  induction l with
  | nil =>
    rw [List.nil_append]
    exact find?_pair_cons_true (nm, v) [] nm (by simp)
  | cons p rest ih =>
    have hsplit : (p.1 == nm) = false ∧ rest.any (fun p => p.1 == nm) = false := by
      simpa [List.any_cons] using ha
    rw [List.cons_append, find?_pair_cons_false p _ nm hsplit.1]
    exact ih hsplit.2

theorem find?_assocSet_self {β : Type} (l : List (String × β)) (k : String) (v : β) :
    (assocSet l k v).find? (fun p => p.1 == k) = some (k, v) := by
  unfold assocSet
  by_cases ha : l.any (fun p => p.1 == k) = true
  · rw [if_pos ha]
    exact find?_map_replace_self l k v ha
  · rw [if_neg ha]
    exact find?_append_single_self l k v (Bool.eq_false_iff.mpr ha)

theorem lookupAssoc_set_self {β : Type} (l : List (String × β)) (k : String) (v : β) :
    lookupAssoc (assocSet l k v) k = some v := by
  unfold lookupAssoc
  rw [find?_assocSet_self]
  rfl

theorem lookupAssoc_set_ne {β : Type} (l : List (String × β)) (nm : String)
    (v : β) (k : String) (h : ¬(nm = k)) :
    lookupAssoc (assocSet l nm v) k = lookupAssoc l k := by
  unfold assocSet lookupAssoc
  by_cases ha : l.any (fun p => p.1 == nm) = true
  · rw [if_pos ha, find?_map_replace_ne l nm v k h]
  · rw [if_neg ha, find?_append_single_ne l nm v k h]

theorem nodup_keys_eq {β : Type} :
    ∀ (l : List (String × β)), (l.map Prod.fst).Nodup →
      ∀ p ∈ l, ∀ q ∈ l, p.1 = q.1 → p = q := by
  intro l
  induction l with
  | nil => intro _ p hp; simp at hp
  | cons a rest ih =>
    intro hnd p hp q hq hpq
    rw [List.map_cons] at hnd
    obtain ⟨hhead, htail⟩ := List.nodup_cons.mp hnd
    rcases List.mem_cons.mp hp with hpa | hpr <;>
      rcases List.mem_cons.mp hq with hqa | hqr
    · rw [hpa, hqa]
    · exfalso
      apply hhead
      rw [hpa] at hpq
      rw [hpq]
      exact List.mem_map_of_mem Prod.fst hqr
    · exfalso
      apply hhead
      rw [hqa] at hpq
      rw [← hpq]
      exact List.mem_map_of_mem Prod.fst hpr
    · exact ih htail p hpr q hqr hpq

theorem assocSet_mem_nodup {β : Type} (l : List (String × β)) (k : String) (v : β)
    (hmem : (k, v) ∈ l) (hnd : (l.map Prod.fst).Nodup) : assocSet l k v = l := by
  unfold assocSet
  have ha : l.any (fun p => p.1 == k) = true :=
    List.any_eq_true.mpr ⟨(k, v), hmem, by simp⟩
  rw [if_pos ha]
  have hpt : ∀ p ∈ l, (if p.1 == k then (k, v) else p) = p := by
    intro p hp
    cases hpk : (p.1 == k) with
    | false => simp [hpk]
    | true =>
      have hpe : p = (k, v) :=
        nodup_keys_eq l hnd p hp (k, v) hmem (by simpa using hpk)
      simp [hpk, hpe]
  calc l.map (fun p => if p.1 == k then (k, v) else p) = l.map id :=
        List.map_congr_left hpt
    _ = l := List.map_id l

theorem applyKVs_self {l : List (String × String)}
    (hnd : (l.map Prod.fst).Nodup) :
    ∀ todo : List (String × String), (∀ p ∈ todo, p ∈ l) → applyKVs l todo = l := by
  intro todo
  induction todo with
  | nil => intro _; rfl
  | cons p rest ih =>
    intro hsub
    unfold applyKVs at *
    rw [List.foldl_cons]
    have hstep : upsertKV l p.1 p.2 = l := by
      unfold upsertKV
      exact assocSet_mem_nodup l p.1 p.2
        (by rw [Prod.mk.eta]; exact hsub p (List.mem_cons_self p rest)) hnd
    rw [hstep]
    exact ih (fun q hq => hsub q (List.mem_cons_of_mem p hq))

/-! ## Extraction-loop lemmas -/

theorem extractLoop_ok {page : PageModel} :
    ∀ (sels : List SelectorItem) (acc : List (String × FieldVal)),
      (∀ i ∈ sels, i.multiple = true → (page.query i.selector).isSome = true) →
      ∃ r, extractLoop page sels acc = Except.ok r := by
  intro sels
  induction sels with
  | nil => exact fun acc _ => ⟨acc, rfl⟩
  | cons item rest ih =>
    intro acc hvalid
    have hok : ∃ v, processItem page item = Except.ok v := by
      unfold processItem
      cases hm : item.multiple with
      | false =>
        cases hq : page.query item.selector with
        | none => exact ⟨_, rfl⟩
        | some els => cases els <;> exact ⟨_, rfl⟩
      | true =>
        cases hq : page.query item.selector with
        | none =>
          have := hvalid item (List.mem_cons_self item rest) hm
          rw [hq] at this
          simp at this
        | some els => exact ⟨_, rfl⟩
    obtain ⟨v, hv⟩ := hok
    obtain ⟨r, hr⟩ := ih (setField acc item.name v)
      (fun i hi => hvalid i (List.mem_cons_of_mem item hi))
    refine ⟨r, ?_⟩
    rw [extractLoop, hv]
    exact hr

theorem extractLoop_preserve {page : PageModel} :
    ∀ (sels : List SelectorItem) (acc r : List (String × FieldVal)) (k : String),
      extractLoop page sels acc = Except.ok r →
      (∀ i ∈ sels, ¬(i.name = k)) →
      lookupField r k = lookupField acc k := by
  intro sels
  induction sels with
  | nil =>
    intro acc r k hloop _
    rw [extractLoop] at hloop
    injection hloop with hloop
    rw [hloop]
  | cons item rest ih =>
    intro acc r k hloop hnames
    rw [extractLoop] at hloop
    cases hpi : processItem page item with
    | error e => rw [hpi] at hloop; simp at hloop
    | ok v =>
      rw [hpi] at hloop
      have hrec := ih (setField acc item.name v) r k hloop
        (fun i hi => hnames i (List.mem_cons_of_mem item hi))
      rw [hrec]
      unfold setField lookupField
      exact lookupAssoc_set_ne acc item.name v k
        (hnames item (List.mem_cons_self item rest))

theorem extractLoop_lookup {page : PageModel} :
    ∀ (sels : List SelectorItem) (acc r : List (String × FieldVal))
      (item : SelectorItem) (v : FieldVal),
      extractLoop page sels acc = Except.ok r →
      item ∈ sels →
      (sels.map SelectorItem.name).Nodup →
      processItem page item = Except.ok v →
      lookupField r item.name = some v := by
  intro sels
  induction sels with
  | nil => intro acc r item v _ hmem; simp at hmem
  | cons hd rest ih =>
    intro acc r item v hloop hmem hnodup hpi
    rw [extractLoop] at hloop
    cases hph : processItem page hd with
    | error e => rw [hph] at hloop; simp at hloop
    | ok v' =>
      rw [hph] at hloop
      rw [List.map_cons] at hnodup
      obtain ⟨hhead, htail⟩ := List.nodup_cons.mp hnodup
      rcases List.mem_cons.mp hmem with heq | hmem'
      · subst heq
        rw [hpi] at hph
        injection hph with hph
        subst hph
        have hrest : ∀ i ∈ rest, ¬(i.name = item.name) := by
          intro i hi hin
          exact hhead (hin ▸ List.mem_map_of_mem SelectorItem.name hi)
        rw [extractLoop_preserve rest (setField acc item.name v) r item.name hloop hrest]
        unfold setField lookupField
        exact lookupAssoc_set_self acc item.name v
      · exact ih (setField acc hd.name v') r item v hloop hmem' htail hpi

/-! ## Claims -/

/-- Claim C1 counterexample: the finally block of executeTask awaits
context.close() with no catch, so with an existing task, every inner step
succeeding and a rejecting close, the call rejects with the close error and
no task_results row is inserted — refuting the unconditional claim that a
TaskResult and a terminal resolution are always produced. -/
theorem c1_counterexample :
    findTask wDb 1 = some wTask ∧
    (executeTask wEnvClose wDb 1).2 = Except.error (SvcErr.stepErr "close failed") ∧
    ((executeTask wEnvClose wDb 1).1).results = [] ∧
    wDb.results = [] :=
  ⟨rfl, rfl, rfl, rfl⟩

/-- Claim C1 (amended): on an existing task, when the finally-block context
close succeeds, executeTask resolves for every combination of outcomes of the
browser initialization, context creation, login, navigation, extraction,
normalization and screenshot steps, appending exactly one task_results row
and leaving the task in a terminal completed or failed status; but when the
context close rejects, the close error propagates to the caller: the call
rejects, no task_results row is inserted, and the task is only marked
failed. -/
theorem c1_amended :
    (∀ (env : ExecEnv) (db : DB) (taskId : Nat) (task : Task),
      findTask db taskId = some task → env.ctxClose = Except.ok () →
      ∃ (db' : DB) (row : ResultRow) (s : ExecSummary),
        executeTask env db taskId = (db', Except.ok s) ∧
        db'.results = db.results ++ [row] ∧
        row.taskId = taskId ∧
        ∃ t2, findTask db' taskId = some t2 ∧
          (t2.status = TStatus.completed ∨ t2.status = TStatus.failed)) ∧
    (∀ (env : ExecEnv) (db : DB) (taskId : Nat) (task : Task) (e : String),
      findTask db taskId = some task → env.ctxLive = true →
      env.ctxClose = Except.error e →
      ∃ db', executeTask env db taskId = (db', Except.error (SvcErr.stepErr e)) ∧
        db'.results = db.results ∧
        ∃ t2, findTask db' taskId = some t2 ∧ t2.status = TStatus.failed) := by
  constructor
  · intro env db taskId task hfind hclose
    obtain ⟨db', row, s, heq, hres, hid, hstat, herr, hs, t2, hfind2, ht2⟩ :=
      execBody_run env db taskId task hfind hclose
    refine ⟨db', row, s, ?_, hres, hid, t2, hfind2, ?_⟩
    · rw [executeTask_found hfind]
      exact heq
    · rw [ht2, hstat]
      cases (innerRun env task.config).1.isSome <;> simp
  · intro env db taskId task e hfind hlive hclose
    have h4 := @execLogsPhase_find env db taskId task task hfind
    rw [executeTask_found hfind, execBody_closeFail hlive hclose,
        outerCatch_found h4]
    refine ⟨_, rfl, ?_, ?_⟩
    · rw [logTask_results, updateTask_fst_results, execLogsPhase_results]
    · refine ⟨updRow env.endTime failMarkUpd
        (updRow env.startTime [UpdEntry.status TStatus.running] task), ?_, rfl⟩
      rw [findTask_logTask]
      exact @updateTask_find env.endTime (execLogsPhase env db taskId task)
        taskId failMarkUpd _ h4

/-- Witness for C1 (amended): the concrete pending task ran once with a
failing extraction step and a succeeding close, and once with a rejecting
close. -/
theorem c1_witness :
    (∃ (db' : DB) (row : ResultRow) (s : ExecSummary),
      executeTask wEnvFail wDb 1 = (db', Except.ok s) ∧
      db'.results = wDb.results ++ [row] ∧
      row.taskId = 1 ∧
      ∃ t2, findTask db' 1 = some t2 ∧
        (t2.status = TStatus.completed ∨ t2.status = TStatus.failed)) ∧
    (∃ db', executeTask wEnvClose wDb 1 =
        (db', Except.error (SvcErr.stepErr "close failed")) ∧
      db'.results = wDb.results ∧
      ∃ t2, findTask db' 1 = some t2 ∧ t2.status = TStatus.failed) :=
  ⟨c1_amended.1 wEnvFail wDb 1 wTask rfl rfl,
   c1_amended.2 wEnvClose wDb 1 wTask "close failed" rfl rfl rfl⟩

/-- Claim C2: when the task load fails because the id does not exist, the
call rejects with exactly the NotFound load error and the store is left
unchanged. The best-effort marking update inside the outer catch fails with
the same NotFound error value, which is what reaches the caller; nothing
beyond that single error is surfaced, and no state change occurs. -/
theorem c2_missing_task_propagates (env : ExecEnv) (db : DB) (taskId : Nat)
    (hnone : findTask db taskId = none) :
    executeTask env db taskId =
      (db, Except.error (SvcErr.notFound (notFoundMsg taskId))) :=
  executeTask_missing hnone

/-- Witness for C2: the empty store. -/
theorem c2_witness :
    findTask ({} : DB) 1 = none ∧
    executeTask wEnvFail ({} : DB) 1 =
      (({} : DB), Except.error (SvcErr.notFound (notFoundMsg 1))) :=
  ⟨rfl, c2_missing_task_propagates wEnvFail {} 1 rfl⟩

/-- Claim C6: updateTask applies exactly the allow-listed entries — removing
every other key does not change its outcome — always refreshes updated_at on
success, and fails with NotFound exactly when no task has the id. -/
theorem c6_updateTask_allowlist (now : Int) (db : DB) (taskId : Nat)
    (upd : List UpdEntry) :
    updateTask now db taskId upd =
      updateTask now db taskId
        (upd.filter (fun e => allowedFields.contains (entryKey e))) ∧
    (∀ db' t, updateTask now db taskId upd = (db', Except.ok t) →
      t.updatedAt = now ∧ findTask db' taskId = some t) ∧
    ((updateTask now db taskId upd).2 =
        Except.error (SvcErr.notFound (notFoundMsg taskId)) ↔
      findTask db taskId = none) := by
  refine ⟨?_, ?_, ?_⟩
  · cases hfind : findTask db taskId with
    | none => rw [updateTask_missing hfind, updateTask_missing hfind]
    | some t0 =>
      rw [updateTask_found hfind, updateTask_found hfind]
      have hf : ∀ u, updRow now upd u =
          updRow now (upd.filter (fun e => allowedFields.contains (entryKey e))) u := by
        intro u
        unfold updRow
        rw [foldl_applyEntry_filter]
      simp only [hf]
  · intro db' t h
    cases hfind : findTask db taskId with
    | none =>
      rw [updateTask_missing hfind] at h
      simp at h
    | some t0 =>
      rw [updateTask_found hfind] at h
      injection h with h1 h2
      injection h2 with h2
      subst h2
      refine ⟨rfl, ?_⟩
      have hft := @updateTask_find now db taskId upd t0 hfind
      rw [updateTask_found hfind] at hft
      rw [← h1]
      exact hft
  · cases hfind : findTask db taskId with
    | none => rw [updateTask_missing hfind]; simp
    | some t0 => rw [updateTask_found hfind]; simp

/-- Witness for C6: the failure-marking update (status plus the dropped
error and completed_at keys) against the concrete store. -/
theorem c6_witness :
    updateTask 7 wDb 1 failMarkUpd =
      updateTask 7 wDb 1
        (failMarkUpd.filter (fun e => allowedFields.contains (entryKey e))) ∧
    (∀ db' t, updateTask 7 wDb 1 failMarkUpd = (db', Except.ok t) →
      t.updatedAt = 7 ∧ findTask db' 1 = some t) ∧
    ((updateTask 7 wDb 1 failMarkUpd).2 =
        Except.error (SvcErr.notFound (notFoundMsg 1)) ↔
      findTask wDb 1 = none) :=
  c6_updateTask_allowlist 7 wDb 1 failMarkUpd

/-- Claim C4 counterexample: updateTask moves a completed task back to
pending — an edge outside the transition relation stated by the spec — so the
code does not enforce the claimed status discipline. -/
theorem c4_counterexample :
    (findTask c4db 1).map Task.status = some TStatus.completed ∧
    (findTask (updateTask 5 c4db 1 [UpdEntry.status TStatus.pending]).1 1).map
        Task.status = some TStatus.pending ∧
    (TStatus.completed, TStatus.pending) ∉ specTransitions :=
  ⟨rfl, rfl, by decide⟩

/-- Claim C4 (amended): the code enforces no transition discipline. updateTask
writes any supplied status over any current status, while executeTask (with
the context close succeeding) marks an existing task running and leaves it
completed or failed regardless of its prior status. -/
theorem c4_amended :
    (∀ (now : Int) (db : DB) (taskId : Nat) (t : Task) (s : TStatus),
      findTask db taskId = some t →
      ∃ t2, (updateTask now db taskId [UpdEntry.status s]).2 = Except.ok t2 ∧
        t2.status = s) ∧
    (∀ (env : ExecEnv) (db : DB) (taskId : Nat) (task : Task),
      findTask db taskId = some task → env.ctxClose = Except.ok () →
      ∃ t2, findTask (executeTask env db taskId).1 taskId = some t2 ∧
        (t2.status = TStatus.completed ∨ t2.status = TStatus.failed)) := by
  constructor
  · intro now db taskId t s hfind
    rw [updateTask_found hfind]
    exact ⟨updRow now [UpdEntry.status s] t, rfl, rfl⟩
  · intro env db taskId task hfind hclose
    obtain ⟨db', row, s, heq, hres, hid, hstat, herr, hs, t2, hfind2, ht2⟩ :=
      execBody_run env db taskId task hfind hclose
    rw [executeTask_found hfind, heq]
    refine ⟨t2, hfind2, ?_⟩
    rw [ht2, hstat]
    cases (innerRun env task.config).1.isSome <;> simp

/-- Witness for C4 (amended): the concrete completed task moved to pending,
and a concrete run ending terminal. -/
theorem c4_witness :
    (∃ t2, (updateTask 5 c4db 1 [UpdEntry.status TStatus.pending]).2 =
        Except.ok t2 ∧ t2.status = TStatus.pending) ∧
    (∃ t2, findTask (executeTask wEnvFail wDb 1).1 1 = some t2 ∧
      (t2.status = TStatus.completed ∨ t2.status = TStatus.failed)) :=
  ⟨c4_amended.1 5 c4db 1 c4task TStatus.pending rfl,
   c4_amended.2 wEnvFail wDb 1 wTask rfl rfl⟩

/-- Claim C5 counterexample: createTask with the required name missing fails
with the not-null constraint error of the store, not with a validation
error — the function performs no validation of its own. -/
theorem c5_counterexample :
    (createTask 0 {} c5data).2 = Except.error (SvcErr.notNull "name") ∧
    isValidationErr (createTask 0 {} c5data).2 = false :=
  ⟨rfl, rfl⟩

/-- Claim C5 (amended): createTask performs no field validation; a missing
name, url, or config makes the underlying insert fail with the corresponding
not-null constraint error (never a validation error) and leaves the store
unchanged; otherwise the task is inserted with status pending and the full
record is returned. -/
theorem c5_amended (now : Int) (db : DB) (d : CreateData) :
    ((d.name = none ∨ d.url = none ∨ d.config = none) →
      ∃ c, createTask now db d = (db, Except.error (SvcErr.notNull c)) ∧
        isValidationErr (createTask now db d).2 = false) ∧
    (∀ nm u cfg, d.name = some nm → d.url = some u → d.config = some cfg →
      ∃ t, createTask now db d =
          ({ db with
             tasks := db.tasks ++ [t],
             nextTaskId := db.nextTaskId + 1 }, Except.ok t) ∧
        t.status = TStatus.pending ∧ t.name = nm ∧ t.url = u) := by
  constructor
  · intro h
    cases hn : d.name with
    | none =>
      have he : createTask now db d = (db, Except.error (SvcErr.notNull "name")) := by
        unfold createTask
        rw [hn]
      exact ⟨"name", he, by rw [he]; rfl⟩
    | some nm =>
      cases hu : d.url with
      | none =>
        have he : createTask now db d = (db, Except.error (SvcErr.notNull "url")) := by
          unfold createTask
          rw [hn, hu]
        exact ⟨"url", he, by rw [he]; rfl⟩
      | some u =>
        cases hc : d.config with
        | none =>
          have he : createTask now db d =
              (db, Except.error (SvcErr.notNull "config")) := by
            unfold createTask
            rw [hn, hu, hc]
          exact ⟨"config", he, by rw [he]; rfl⟩
        | some cfg => simp [hn, hu, hc] at h
  · intro nm u cfg hn hu hc
    refine ⟨{ id := db.nextTaskId, name := nm, description := d.description,
              url := u, status := TStatus.pending, createdAt := now,
              updatedAt := now, scheduledFor := d.scheduledFor, config := cfg,
              userId := d.userId }, ?_, rfl, rfl, rfl⟩
    unfold createTask
    rw [hn, hu, hc]

/-- Witness for C5 (amended): a fully populated create succeeds with status
pending. -/
theorem c5_witness :
    ∃ t, createTask 3 ({} : DB)
        { name := some "n", url := some "u", config := some ({} : TaskConfig) } =
        ({ ({} : DB) with
           tasks := ({} : DB).tasks ++ [t],
           nextTaskId := ({} : DB).nextTaskId + 1 }, Except.ok t) ∧
      t.status = TStatus.pending ∧ t.name = "n" ∧ t.url = "u" :=
  (c5_amended 3 {} _).2 "n" "u" {} rfl rfl rfl

/-- Claim C3 counterexample: with an unscheduled pending task and a
past-scheduled pending task (now = 10), getPendingTasks returns the scheduled
one first — the SQL orders NULLS LAST — contradicting the claimed
null-before-non-null order. -/
theorem c3_counterexample :
    getPendingTasks 10 c3db = [c3taskB, c3taskA] ∧
    c3taskA.scheduledFor = none ∧
    c3taskB.scheduledFor = some 5 ∧
    ¬ nullsFirstOrder (getPendingTasks 10 c3db) := by
  refine ⟨rfl, rfl, rfl, ?_⟩
  intro h
  rw [show getPendingTasks 10 c3db = [c3taskB, c3taskA] from rfl] at h
  unfold nullsFirstOrder at h
  have hrel := (List.pairwise_cons.mp h).1 c3taskA (by simp)
  exact hrel (by simp [c3taskB]) rfl

/-- Claim C3 (amended): getPendingTasks returns only tasks with status
pending whose scheduled_for is null or not after now, and in the returned
order every task with a (past) non-null scheduled_for comes before every task
with null scheduled_for (nulls last). -/
theorem c3_amended (now : Int) (db : DB) :
    (∀ t ∈ getPendingTasks now db,
      t.status = TStatus.pending ∧
      (t.scheduledFor = none ∨ ∃ s, t.scheduledFor = some s ∧ s ≤ now)) ∧
    nullsLastOrder (getPendingTasks now db) := by
  constructor
  · intro t ht
    have hmem : t ∈ db.tasks.filter (pendingFilter now) := by
      unfold getPendingTasks at ht
      exact (List.mem_insertionSort schedLE).mp ht
    have hpf : pendingFilter now t = true := (List.mem_filter.mp hmem).2
    unfold pendingFilter at hpf
    rw [Bool.and_eq_true] at hpf
    obtain ⟨h1, h2⟩ := hpf
    constructor
    · cases hs : t.status
      · rfl
      · rw [hs] at h1; simp at h1
      · rw [hs] at h1; simp at h1
      · rw [hs] at h1; simp at h1
    · cases ho : t.scheduledFor with
      | none => exact Or.inl rfl
      | some s =>
        rw [ho] at h2
        exact Or.inr ⟨s, rfl, of_decide_eq_true h2⟩
  · have hs := List.sorted_insertionSort schedLE (db.tasks.filter (pendingFilter now))
    unfold nullsLastOrder getPendingTasks
    refine List.Pairwise.imp ?_ hs
    intro a b hab han
    unfold schedLE at hab
    rw [han] at hab
    cases hb : b.scheduledFor with
    | none => rfl
    | some z =>
      rw [hb] at hab
      exact absurd hab (by simp)

/-- Witness for C3 (amended) at the concrete two-task store. -/
theorem c3_witness :
    (∀ t ∈ getPendingTasks 10 c3db,
      t.status = TStatus.pending ∧
      (t.scheduledFor = none ∨ ∃ s, t.scheduledFor = some s ∧ s ≤ (10 : Int))) ∧
    nullsLastOrder (getPendingTasks 10 c3db) :=
  c3_amended 10 c3db

/-- Claim C7: for every selector list (with distinct field names, and the
multiple-element selectors resolving without a query error), extraction
succeeds and a selector matching zero elements yields the empty sequence for
its field when multiple is true, and null — with no error — when multiple is
false. -/
theorem c7_zero_matches (page : PageModel) (sels : List SelectorItem)
    (hvalid : ∀ i ∈ sels, i.multiple = true → (page.query i.selector).isSome = true)
    (hnodup : (sels.map SelectorItem.name).Nodup) :
    ∃ r, extractData page sels = Except.ok r ∧
      ∀ item ∈ sels, page.query item.selector = some [] →
        lookupField r item.name =
          some (if item.multiple then FieldVal.many [] else FieldVal.one none) := by
  obtain ⟨r, hr⟩ := extractLoop_ok sels [] hvalid
  refine ⟨r, hr, ?_⟩
  intro item hmem hq
  have hpi : processItem page item =
      Except.ok (if item.multiple then FieldVal.many [] else FieldVal.one none) := by
    unfold processItem
    cases hm : item.multiple <;> simp [hq]
  exact extractLoop_lookup sels [] r item _ hr hmem hnodup hpi

/-- Witness for C7: a two-selector extraction over the concrete page whose
queried selector matches zero elements. -/
theorem c7_witness :
    (∀ i ∈ [wSelMulti, wSelSingle], i.multiple = true →
      (wPage.query i.selector).isSome = true) ∧
    (([wSelMulti, wSelSingle].map SelectorItem.name).Nodup) ∧
    ∃ r, extractData wPage [wSelMulti, wSelSingle] = Except.ok r ∧
      ∀ item ∈ [wSelMulti, wSelSingle], wPage.query item.selector = some [] →
        lookupField r item.name =
          some (if item.multiple then FieldVal.many [] else FieldVal.one none) :=
  ⟨by decide, by decide, c7_zero_matches wPage [wSelMulti, wSelSingle]
    (by decide) (by decide)⟩

/-- Claim C10: when the element query for a selector fails outright (for
example an invalid selector), the single-element branch still resolves the
field to null thanks to its catch, while the multiple-element branch throws,
aborting the whole extraction whatever selectors follow. -/
theorem c10_single_catch_multiple_throw (page : PageModel) (item : SelectorItem)
    (rest : List SelectorItem)
    (hq : page.query item.selector = none) :
    (item.multiple = false →
      extractData page [item] = Except.ok [(item.name, FieldVal.one none)]) ∧
    (item.multiple = true →
      extractData page (item :: rest) =
        Except.error (SvcErr.stepErr ("selector failed: " ++ item.selector))) := by
  constructor
  · intro hm
    have hpi : processItem page item = Except.ok (FieldVal.one none) := by
      unfold processItem
      simp [hm, hq]
    unfold extractData
    rw [extractLoop, hpi]
    rfl
  · intro hm
    have hpi : processItem page item =
        Except.error (SvcErr.stepErr ("selector failed: " ++ item.selector)) := by
      unfold processItem
      simp [hm, hq]
    unfold extractData
    rw [extractLoop, hpi]

/-- Witness for C10: the failing selector resolves to null in single mode and
aborts the extraction in multiple mode. -/
theorem c10_witness :
    wPage.query "#bad" = none ∧
    extractData wPage [wSelBad] = Except.ok [("y", FieldVal.one none)] ∧
    extractData wPage [wSelBadMulti, wSelOne] =
      Except.error (SvcErr.stepErr ("selector failed: " ++ "#bad")) :=
  ⟨rfl, (c10_single_catch_multiple_throw wPage wSelBad [] rfl).1 rfl,
   (c10_single_catch_multiple_throw wPage wSelBadMulti [wSelOne] rfl).2 rfl⟩

/-- Claim C9: with an active context and page whose cookie and storage keys
are duplicate-free, saveUserData followed by loadStoredUserData on the same
domain succeeds on both sides and restores exactly the cookie set and
local-storage mapping present at save time, through the per-domain upserted
user_data row. -/
theorem c9_session_roundtrip (bs : BState) (db : DB) (domain : String)
    (ctx : Ctx) (pg : PageState)
    (hctx : bs.context = some ctx) (hpg : bs.page = some pg)
    (hndc : (ctx.cookies.map Prod.fst).Nodup)
    (hnds : (pg.storage.map Prod.fst).Nodup) :
    (saveUserData domain bs db).2 = true ∧
    (loadStoredUserData domain bs (saveUserData domain bs db).1).2 = true ∧
    ∃ ctx2 pg2,
      (loadStoredUserData domain bs (saveUserData domain bs db).1).1.context =
        some ctx2 ∧
      (loadStoredUserData domain bs (saveUserData domain bs db).1).1.page =
        some pg2 ∧
      ctx2.cookies = ctx.cookies ∧ pg2.storage = pg.storage := by
  have hsave : saveUserData domain bs db =
      ({ db with userData :=
          assocSet db.userData domain ⟨ctx.cookies, pg.storage⟩ }, true) := by
    unfold saveUserData
    rw [hctx, hpg]
  have hfindrow : ((saveUserData domain bs db).1).userData.find?
      (fun p => p.1 == domain) = some (domain, ⟨ctx.cookies, pg.storage⟩) := by
    rw [hsave]
    exact find?_assocSet_self db.userData domain _
  have hload : loadStoredUserData domain bs (saveUserData domain bs db).1 =
      (⟨some ⟨applyKVs ctx.cookies ctx.cookies⟩,
        some ⟨applyKVs pg.storage pg.storage⟩⟩, true) := by
    unfold loadStoredUserData
    rw [hctx, hfindrow, hpg]
  rw [applyKVs_self hndc ctx.cookies (fun p hp => hp),
      applyKVs_self hnds pg.storage (fun p hp => hp)] at hload
  refine ⟨by rw [hsave], by rw [hload], ⟨ctx.cookies⟩, ⟨pg.storage⟩,
    by rw [hload], by rw [hload], rfl, rfl⟩

/-- Witness for C9 at the concrete browser state and the empty store. -/
theorem c9_witness :
    (saveUserData "example.com" wBState ({} : DB)).2 = true ∧
    (loadStoredUserData "example.com" wBState
        (saveUserData "example.com" wBState ({} : DB)).1).2 = true ∧
    ∃ ctx2 pg2,
      (loadStoredUserData "example.com" wBState
          (saveUserData "example.com" wBState ({} : DB)).1).1.context =
        some ctx2 ∧
      (loadStoredUserData "example.com" wBState
          (saveUserData "example.com" wBState ({} : DB)).1).1.page =
        some pg2 ∧
      ctx2.cookies = [("sid", "abc")] ∧ pg2.storage = [("k", "v")] :=
  c9_session_roundtrip wBState {} "example.com" ⟨[("sid", "abc")]⟩ ⟨[("k", "v")]⟩
    rfl rfl (by decide) (by decide)

/-- Claim C8: on json format, processData parses exactly the slice described
by the spec — the fenced code block when present, else the brace-delimited
substring, else the whole content — and a parse failure yields the structured
error object carrying the raw content instead of a thrown error; concretely,
the fenced demo extracts its inner object, the prose demo falls back to its
braces, and an unparsable response produces the error object. -/
theorem c8_processData_extraction :
    (∀ (α : Type) (parse : List Char → Option α) (content : List Char),
      processData parse "json" content =
        (match parse (specSelect content) with
          | some v => ProcOut.parsed v
          | none => ProcOut.parseFail "Failed to parse JSON response" content)) ∧
    fencedMatch demoFenced = some demoObj ∧
    fencedMatch demoWrapped = none ∧
    braceMatch demoWrapped = some demoInner ∧
    processData (fun _ => (none : Option Unit)) "json" demoBad =
      ProcOut.parseFail "Failed to parse JSON response" demoBad := by
  refine ⟨?_, rfl, rfl, rfl, rfl⟩
  intro α parse content
  unfold processData specSelect jsonSliceOf
  cases fencedMatch content <;> cases braceMatch content <;> rfl

/-- Witness for C8: the general equation applied to a concrete parser and the
fenced demo response. -/
theorem c8_witness :
    processData (fun s => if s = demoObj then some 1 else none) "json" demoFenced =
      (match (fun (s : List Char) => if s = demoObj then some 1 else none)
          (specSelect demoFenced) with
        | some v => ProcOut.parsed v
        | none => ProcOut.parseFail "Failed to parse JSON response" demoFenced) :=
  c8_processData_extraction.1 Nat
    (fun s => if s = demoObj then some 1 else none) demoFenced

end AutoSvc
